import Mathlib

/-
Verification development for the amplifier-distro experience server.

The definitions below are shallow embeddings of the Python sources of the
repository (paths given per definition).  Strings are modelled as Lean
String or List Char; Python dicts keyed by strings are modelled as
association lists; async queues and workers are modelled by explicit state
and by traces of the sequential worker loop.  Wall-clock timestamps and
actual file IO are abstracted away: the state records the JSON documents
that the repository code would have written, together with write counters.
-/

namespace AmplifierDistro

/-! ## Generic string helpers -/

/-- Boolean substring test on char lists: true iff pat occurs contiguously
inside s.  Models the Python expression pat in s for strings. -/
def charListContains (s pat : List Char) : Bool :=
  match s with
  | [] => decide (pat = [])
  | _ :: rest => pat.isPrefixOf s || charListContains rest pat

/-- Lower-case every character; models Python str.lower for ASCII data. -/
def lowerChars (cs : List Char) : List Char := cs.map Char.toLower

/-- Membership of pat in s after lower-casing s; used to check whether an
error message matches a lower-case phrase case-insensitively. -/
def mentionsPhrase (msg : String) (pat : String) : Bool :=
  charListContains (lowerChars msg.toList) pat.toList

theorem charListContains_of_isInfix {pat s : List Char} (h : pat <:+: s) :
    charListContains s pat = true := by
  induction s with
  | nil =>
      rcases h with ⟨pre, post, hps⟩
      have : pre = [] ∧ pat ++ post = [] := by
        constructor
        · cases pre with
          | nil => rfl
          | cons a t => simp at hps
        · cases pre with
          | nil => simpa using hps
          | cons a t => simp at hps
      have hpat : pat = [] := by
        rcases this with ⟨-, h2⟩
        exact (List.append_eq_nil.mp h2).1
      simp [charListContains, hpat]
  | cons c rest ih =>
      rw [List.infix_cons_iff] at h
      rcases h with hpre | hinf
      · have : pat.isPrefixOf (c :: rest) = true := by
          exact List.isPrefixOf_iff_prefix.mpr hpre
        simp [charListContains, this]
      · have := ih hinf
        simp [charListContains, this]

/-! ## C10: project-id encoding round trip

Source: src/distro-server/src/amplifier_distro/server/session_backend.py,
FoundationBackend.create_session (line 490): the project id is the working
directory string with every slash replaced by a dash.
Source: src/distro-server/src/amplifier_distro/server/apps/slack/discovery.py,
AmplifierDiscovery._decode_project_path (lines 252-261): a directory name
starting with a dash is decoded by replacing every dash with a slash;
other names are returned unchanged. -/

/-- Encoding used by FoundationBackend.create_session:
str(wd).replace("/", "-"), modelled on char lists. -/
def encodeProjectId (p : List Char) : List Char :=
  p.map fun c => if c = '/' then '-' else c

/-- Decoding used by AmplifierDiscovery._decode_project_path:
if the name starts with a dash, replace every dash by a slash, else return
the name unchanged. -/
def decodeProjectPath (d : List Char) : List Char :=
  match d with
  | '-' :: _ => d.map fun c => if c = '-' then '/' else c
  | _ => d

theorem map_eq_self_iff_fix (f : Char → Char) (l : List Char) :
    l.map f = l ↔ ∀ c ∈ l, f c = c := by
  induction l with
  | nil => simp
  | cons a t ih => simp [ih]

/-- C10: for every absolute path p (first character a slash), decoding the
encoding of p returns p exactly when p contains no dash character. -/
theorem projectId_roundtrip (p : List Char) (h : p.head? = some '/') :
    decodeProjectPath (encodeProjectId p) = p ↔ ('-' ∉ p) := by
  cases p with
  | nil => simp at h
  | cons c0 rest =>
    have hc0 : c0 = '/' := by simpa using h
    subst hc0
    have henc : encodeProjectId ('/' :: rest) =
        '-' :: rest.map (fun c => if c = '/' then '-' else c) := by
      simp [encodeProjectId]
    rw [henc]
    show (('-' :: rest.map fun c => if c = '/' then '-' else c).map
        fun c => if c = '-' then '/' else c) = '/' :: rest ↔ _
    rw [List.map_cons, List.map_map]
    have hcomp : ∀ c : Char,
        ((fun c => if c = '-' then '/' else c) ∘
          fun c => if c = '/' then '-' else c) c = c ↔ c ≠ '-' := by
      intro c
      by_cases h1 : c = '/'
      · subst h1; simp
      · by_cases h2 : c = '-'
        · subst h2; simp
        · simp [Function.comp, h1, h2]
    constructor
    · intro heq hmem
      injection heq with hhead htail
      rcases List.mem_cons.mp hmem with h3 | h3
      · exact absurd h3 (by decide)
      · exact ((hcomp '-').mp ((map_eq_self_iff_fix _ _).mp htail '-' h3)) rfl
    · intro hnot
      have : ∀ c ∈ rest, ((fun c => if c = '-' then '/' else c) ∘
          fun c => if c = '/' then '-' else c) c = c := by
        intro c hc
        exact (hcomp c).mpr (by
          intro hEq
          exact hnot (hEq ▸ List.mem_cons_of_mem _ hc))
      rw [(map_eq_self_iff_fix _ rest).mpr this]
      simp

/-- Witness for C10 at a concrete dash-free absolute path. -/
theorem projectId_roundtrip_witness :
    (("/data/repo".toList : List Char).head? = some '/') ∧
      (decodeProjectPath (encodeProjectId "/data/repo".toList) = "/data/repo".toList ↔
        ('-' ∉ "/data/repo".toList)) :=
  ⟨by decide, projectId_roundtrip "/data/repo".toList (by decide)⟩

/-! ## C4: streaming-hook payload sanitizer

Source: src/distro-server/src/amplifier_distro/server/apps/voice/protocols/
event_streaming.py, EventStreamingHook._sanitize_for_streaming
(lines 82-96).  Payloads are Python dicts whose values are strings, nested
dicts, or other values (numbers, booleans, lists, None) that the code
copies through untouched; the model keeps those opaque as jarr / jatom. -/

/-- JSON-like payload values as handled by the sanitizer. -/
inductive JVal where
  | jstr : String → JVal
  | jmap : List (String × JVal) → JVal
  | jarr : List JVal → JVal
  | jatom : Nat → JVal

/-- The literal replacement string _BASE64_PLACEHOLDER (line 51). -/
def base64Placeholder : String := "[image data omitted]"

/-- The threshold _BASE64_LENGTH_THRESHOLD (line 52). -/
def base64LengthThreshold : Nat := 1000

mutual
/-- How the sanitizer treats a single dict value (loop body, lines 91-95):
a string longer than the threshold becomes the placeholder, a nested dict
is sanitized recursively, anything else is copied unchanged. -/
def sanitizeValue : JVal → JVal
  | JVal.jstr s =>
      if base64LengthThreshold < s.length then JVal.jstr base64Placeholder
      else JVal.jstr s
  | JVal.jmap es => JVal.jmap (sanitizeEntries es)
  | JVal.jarr xs => JVal.jarr xs
  | JVal.jatom n => JVal.jatom n

/-- The sanitizer loop over the entries of one dict. -/
def sanitizeEntries : List (String × JVal) → List (String × JVal)
  | [] => []
  | (k, v) :: rest => (k, sanitizeValue v) :: sanitizeEntries rest
end

/-- EventStreamingHook._sanitize_for_streaming applied to the top-level
event payload dict. -/
def sanitizeForStreaming (data : List (String × JVal)) : List (String × JVal) :=
  sanitizeEntries data

/-- Dict lookup by key, first match (Python dict access). -/
def findEntry (k : String) : List (String × JVal) → Option JVal
  | [] => none
  | (k2, v) :: rest => if k2 = k then some v else findEntry k rest

/-- Look a value up through a path of nested dict keys. -/
def lookupPath : List String → List (String × JVal) → Option JVal
  | [], _ => none
  | [k], es => findEntry k es
  | k :: k2 :: ks, es =>
      match findEntry k es with
      | some (JVal.jmap es2) => lookupPath (k2 :: ks) es2
      | _ => none

theorem sanitizeValue_jstr (s : String) :
    sanitizeValue (JVal.jstr s) =
      if base64LengthThreshold < s.length then JVal.jstr base64Placeholder
      else JVal.jstr s := by
  rw [sanitizeValue]

theorem sanitizeValue_jmap (es : List (String × JVal)) :
    sanitizeValue (JVal.jmap es) = JVal.jmap (sanitizeEntries es) := by
  rw [sanitizeValue]

theorem findEntry_sanitizeEntries (k : String) (es : List (String × JVal)) :
    findEntry k (sanitizeEntries es) = (findEntry k es).map sanitizeValue := by
  induction es with
  | nil => simp [sanitizeEntries, findEntry]
  | cons e rest ih =>
      cases e with
      | mk k2 v =>
          by_cases hk : k2 = k
          · simp [sanitizeEntries, findEntry, hk]
          · simp [sanitizeEntries, findEntry, hk, ih]

theorem lookupPath_sanitize (p : List String) :
    ∀ (es : List (String × JVal)) (s : String),
      lookupPath p es = some (JVal.jstr s) →
      lookupPath p (sanitizeForStreaming es) =
        some (sanitizeValue (JVal.jstr s)) := by
  induction p with
  | nil => intro es s h; simp [lookupPath] at h
  | cons k ks ih =>
      intro es s h
      cases ks with
      | nil =>
          simp only [lookupPath] at h ⊢
          rw [sanitizeForStreaming, findEntry_sanitizeEntries, h]
          rfl
      | cons k2 ks2 =>
          simp only [lookupPath] at h ⊢
          rw [sanitizeForStreaming, findEntry_sanitizeEntries]
          cases hfe : findEntry k es with
          | none => rw [hfe] at h; simp at h
          | some v =>
              rw [hfe] at h
              cases v with
              | jstr t => simp at h
              | jarr xs => simp at h
              | jatom n => simp at h
              | jmap es2 =>
                  have h2 := ih es2 s h
                  rw [sanitizeForStreaming] at h2
                  have hred : (some (JVal.jmap es2)).map sanitizeValue
                      = some (JVal.jmap (sanitizeEntries es2)) := by
                    show some (sanitizeValue (JVal.jmap es2)) = _
                    rw [sanitizeValue_jmap]
                  rw [hred]
                  exact h2

/-- C4: every string value reachable through nested dict keys is sanitized:
values longer than 1000 characters are replaced by exactly the placeholder
(and therefore do not appear unchanged), shorter strings are untouched, and
the replacement happens at every nesting depth of maps. -/
theorem sanitizer_c4 (es : List (String × JVal)) (p : List String) (s : String)
    (h : lookupPath p es = some (JVal.jstr s)) :
    lookupPath p (sanitizeForStreaming es) =
      some (JVal.jstr
        (if base64LengthThreshold < s.length then base64Placeholder else s)) ∧
    (base64LengthThreshold < s.length → base64Placeholder ≠ s) := by
  constructor
  · have h1 := lookupPath_sanitize p es s h
    rw [h1, sanitizeValue_jstr]
    split <;> rfl
  · intro hlen heq
    rw [← heq] at hlen
    exact absurd hlen (by decide)

/-- Concrete payload with an oversized top-level string and an oversized
string nested one map deep. -/
def sampleLongString : String := String.mk (List.replicate 1001 'a')

def samplePayload : List (String × JVal) :=
  [("image", JVal.jstr sampleLongString),
   ("meta", JVal.jmap [("data", JVal.jstr sampleLongString)]),
   ("note", JVal.jstr "short")]

/-- Witness for C4: the sanitizer replaces the oversized nested string of
the concrete payload with the placeholder. -/
theorem sanitizer_c4_witness :
    lookupPath ["meta", "data"] (sanitizeForStreaming samplePayload) =
      some (JVal.jstr
        (if base64LengthThreshold < sampleLongString.length then base64Placeholder
         else sampleLongString)) ∧
    (base64LengthThreshold < sampleLongString.length →
      base64Placeholder ≠ sampleLongString) :=
  sanitizer_c4 samplePayload ["meta", "data"] sampleLongString rfl

/-! ## Voice conversation repository

Source: src/distro-server/src/amplifier_distro/server/apps/voice/transcript/
repository.py (VoiceConversationRepository) and models.py.  The model keeps,
for one session, the conversation.json document, the index.json entry of the
session, the transcript.jsonl lines, and counters of how many times
conversation.json and index.json were rewritten.  Wall-clock timestamp
fields (created_at, updated_at, ended_at, duration_seconds) are abstracted
away; they do not affect any claim below. -/

/-- Fields of conversation.json relevant to the claims. -/
structure VoiceConv where
  title : List Char
  status : List Char
  endReason : Option (List Char)
deriving DecidableEq

/-- One entry of index.json (create_conversation writes id, title, status,
created_at; end_conversation later patches in end_reason). -/
structure IndexEntry where
  title : List Char
  status : List Char
  endReason : Option (List Char)
deriving DecidableEq

/-- One transcript.jsonl entry (fields relevant to the claims). -/
structure TEntry where
  role : List Char
  content : List Char
deriving DecidableEq

/-- Repository state for one session. -/
structure RepoState where
  conv : Option VoiceConv
  indexEntry : Option IndexEntry
  transcript : List TEntry
  convWrites : Nat
  indexWrites : Nat
deriving DecidableEq

/-- Python whitespace characters recognised by str.split(). -/
def pyIsSpace (c : Char) : Bool :=
  c = ' ' || c = '\t' || c = '\n' || c = '\x0d' || c = '\x0b' || c = '\x0c'

/-- Python text.strip().split(): the maximal runs of non-whitespace. -/
def pySplitAux : List Char → List Char → List (List Char)
  | [], acc => if acc = [] then [] else [acc.reverse]
  | c :: cs, acc =>
      if pyIsSpace c then
        if acc = [] then pySplitAux cs [] else acc.reverse :: pySplitAux cs []
      else pySplitAux cs (c :: acc)

def pySplit (t : List Char) : List (List Char) := pySplitAux t []

/-- Python " ".join(words). -/
def joinSpace : List (List Char) → List Char
  | [] => []
  | [w] => w
  | w :: rest => w ++ ' ' :: joinSpace rest

/-- Title derived from a user message in _maybe_set_title (lines 163-166):
first six words joined by spaces, truncated to 37 chars plus "..." when
longer than 40 chars. -/
def deriveTitle (text : List Char) : List Char :=
  let t := joinSpace ((pySplit text).take 6)
  if 40 < t.length then t.take 37 ++ "...".toList else t

/-- The auto-generated title marker checked by _maybe_set_title (line 161). -/
def voiceSessionMarker : List Char := "Voice session ".toList

def startsWithChars (s pre : List Char) : Bool := pre.isPrefixOf s

/-- Patch the title of the index entry (via _patch_index_entry). -/
def patchIndexTitle : Option IndexEntry → List Char → Option IndexEntry
  | none, _ => none
  | some i, t => some { i with title := t }

/-- VoiceConversationRepository._maybe_set_title (lines 150-174).  No-op when
the conversation is missing, when the title no longer starts with the
"Voice session " marker, or when the derived title is empty; otherwise it
rewrites conversation.json with the new title and patches index.json. -/
def maybeSetTitle (st : RepoState) (text : List Char) : RepoState :=
  match st.conv with
  | none => st
  | some c =>
      if startsWithChars c.title voiceSessionMarker = false then st
      else if deriveTitle text = [] then st
      else
        { st with
          conv := some { c with title := deriveTitle text },
          indexEntry := patchIndexTitle st.indexEntry (deriveTitle text),
          convWrites := st.convWrites + 1,
          indexWrites := st.indexWrites + 1 }

def userRole : List Char := "user".toList
def assistantRole : List Char := "assistant".toList

/-- VoiceConversationRepository.add_entry (lines 176-190): append one line to
transcript.jsonl, then run the title update for user entries. -/
def addEntry (st : RepoState) (e : TEntry) : RepoState :=
  if e.role = userRole
  then maybeSetTitle { st with transcript := st.transcript ++ [e] } e.content
  else { st with transcript := st.transcript ++ [e] }

/-- Content of the first user entry of a batch (the break in add_entries). -/
def firstUserContent : List TEntry → Option (List Char)
  | [] => none
  | e :: rest => if e.role = userRole then some e.content
                 else firstUserContent rest

/-- VoiceConversationRepository.add_entries (lines 192-205): batch-append all
entries, then run the title update once for the first user entry. -/
def addEntries (st : RepoState) (es : List TEntry) : RepoState :=
  match firstUserContent es with
  | some t => maybeSetTitle { st with transcript := st.transcript ++ es } t
  | none => { st with transcript := st.transcript ++ es }

/-- VoiceConversationRepository.create_conversation (lines 75-97): write
conversation.json and append an index entry carrying the same title and
status (and no end_reason key yet). -/
def createConversation (st : RepoState) (c : VoiceConv) : RepoState :=
  { st with
    conv := some c,
    indexEntry := some { title := c.title, status := c.status, endReason := none },
    convWrites := st.convWrites + 1,
    indexWrites := st.indexWrites + 1 }

/-- VoiceConversationRepository.update_conversation (lines 106-109): atomic
write of conversation.json only; index.json is not touched. -/
def updateConversation (st : RepoState) (c : VoiceConv) : RepoState :=
  { st with conv := some c, convWrites := st.convWrites + 1 }

/-- VoiceConversationRepository.update_status (lines 111-125): no-op when the
conversation is missing; otherwise set the status in conversation.json and
patch the index entry (the index file is rewritten even when no entry
matches). -/
def updateStatus (st : RepoState) (s : List Char) : RepoState :=
  match st.conv with
  | none => st
  | some c =>
      { st with
        conv := some { c with status := s },
        indexEntry :=
          match st.indexEntry with
          | none => none
          | some i => some { i with status := s },
        convWrites := st.convWrites + 1,
        indexWrites := st.indexWrites + 1 }

def endedStatus : List Char := "ended".toList

/-- VoiceConversationRepository.end_conversation (lines 127-148): no-op when
the conversation is missing; otherwise set status to "ended" with the end
reason in conversation.json and patch status and end_reason in the index. -/
def endConversation (st : RepoState) (r : List Char) : RepoState :=
  match st.conv with
  | none => st
  | some c =>
      { st with
        conv := some { c with status := endedStatus, endReason := some r },
        indexEntry :=
          match st.indexEntry with
          | none => none
          | some i => some { i with status := endedStatus, endReason := some r },
        convWrites := st.convWrites + 1,
        indexWrites := st.indexWrites + 1 }

/-! ## C5: title enrichment -/

/-- Fresh repository state before create_conversation. -/
def emptyRepo : RepoState :=
  { conv := none, indexEntry := none, transcript := [], convWrites := 0,
    indexWrites := 0 }

/-- Concrete conversation as created by the voice app, with the default
auto-generated title. -/
def sampleConv : VoiceConv :=
  { title := "Voice session 1234abcd".toList, status := "active".toList,
    endReason := none }

def firstUserEntry : TEntry :=
  { role := userRole, content := "Voice session hello there my friend".toList }

def secondUserEntry : TEntry :=
  { role := userRole, content := "second message".toList }

/-- C5 counterexample: when the first user message itself starts with
"Voice session ", the enriched title still carries the marker, so the second
user entry enriches again: the title changes and index.json is rewritten a
second time, refuting "exactly once" and "subsequent user entries never
change the title or rewrite index.json". -/
theorem titleEnrichment_c5_counterexample :
    (addEntry (createConversation emptyRepo sampleConv) firstUserEntry).conv =
      some { title := "Voice session hello there my friend".toList,
             status := "active".toList, endReason := none } ∧
    (addEntry (addEntry (createConversation emptyRepo sampleConv) firstUserEntry)
        secondUserEntry).conv =
      some { title := "second message".toList, status := "active".toList,
             endReason := none } ∧
    (addEntry (addEntry (createConversation emptyRepo sampleConv) firstUserEntry)
        secondUserEntry).indexWrites =
      (addEntry (createConversation emptyRepo sampleConv)
        firstUserEntry).indexWrites + 1 := by
  refine ⟨?_, ?_, ?_⟩ <;> decide

/-- Repeated application of add_entry to a list of entries. -/
def addEntrySeq (st : RepoState) (es : List TEntry) : RepoState :=
  es.foldl addEntry st

theorem maybeSetTitle_nonmarker (st : RepoState) (c : VoiceConv) (t : List Char)
    (hconv : st.conv = some c)
    (hm : startsWithChars c.title voiceSessionMarker = false) :
    maybeSetTitle st t = st := by
  unfold maybeSetTitle
  rw [hconv]
  simp [hm]

theorem addEntry_nonmarker (st : RepoState) (c : VoiceConv) (e : TEntry)
    (hconv : st.conv = some c)
    (hm : startsWithChars c.title voiceSessionMarker = false) :
    addEntry st e = { st with transcript := st.transcript ++ [e] } := by
  unfold addEntry
  by_cases hr : e.role = userRole
  · rw [if_pos hr]
    exact maybeSetTitle_nonmarker _ c _ hconv hm
  · rw [if_neg hr]

theorem addEntrySeq_nonmarker (es : List TEntry) :
    ∀ (st : RepoState) (c : VoiceConv), st.conv = some c →
      startsWithChars c.title voiceSessionMarker = false →
      (addEntrySeq st es).conv = st.conv ∧
      (addEntrySeq st es).indexEntry = st.indexEntry ∧
      (addEntrySeq st es).indexWrites = st.indexWrites := by
  induction es with
  | nil => intro st c hconv hm; exact ⟨rfl, rfl, rfl⟩
  | cons e rest ih =>
      intro st c hconv hm
      have hstep := addEntry_nonmarker st c e hconv hm
      have hnext : (addEntry st e).conv = some c := by rw [hstep]; exact hconv
      have := ih (addEntry st e) c hnext hm
      simp only [addEntrySeq, List.foldl_cons] at *
      refine ⟨?_, ?_, ?_⟩
      · rw [this.1, hstep]
      · rw [this.2.1, hstep]
      · rw [this.2.2, hstep]

/-- C5 amended: a user entry enriches the title precisely while the stored
title still starts with "Voice session " and the derived title is nonempty,
rewriting conversation.json and index.json once per such entry; once the
title no longer starts with the marker, no later entry ever changes the
conversation document, the index entry, or the index write count. -/
theorem titleEnrichment_c5_amended (st : RepoState) (c : VoiceConv) (e : TEntry)
    (hconv : st.conv = some c) :
    (e.role = userRole → startsWithChars c.title voiceSessionMarker = true →
      deriveTitle e.content ≠ [] →
      addEntry st e =
        { st with
          transcript := st.transcript ++ [e],
          conv := some { c with title := deriveTitle e.content },
          indexEntry := patchIndexTitle st.indexEntry (deriveTitle e.content),
          convWrites := st.convWrites + 1,
          indexWrites := st.indexWrites + 1 }) ∧
    (startsWithChars c.title voiceSessionMarker = false →
      ∀ es : List TEntry,
        (addEntrySeq st es).conv = st.conv ∧
        (addEntrySeq st es).indexEntry = st.indexEntry ∧
        (addEntrySeq st es).indexWrites = st.indexWrites) := by
  constructor
  · intro hr hm ht
    unfold addEntry
    rw [if_pos hr]
    unfold maybeSetTitle
    split
    · rename_i hnone
      exact absurd hnone (by simp [hconv])
    · rename_i c1 hsome
      have hc1 : some c1 = some c := by
        have h0 : st.conv = some c1 := hsome
        rw [hconv] at h0
        exact h0.symm
      injection hc1 with hc1
      subst hc1
      rw [if_neg (by simp [hm]), if_neg ht]
  · intro hm es
    exact addEntrySeq_nonmarker es st c hconv hm

/-- Conversation after an enrichment that dropped the marker. -/
def enrichedConv : VoiceConv :=
  { title := "plan the trip".toList, status := "active".toList,
    endReason := none }

/-- Repository state holding enrichedConv after one index write. -/
def enrichedRepo : RepoState :=
  { conv := some enrichedConv, indexEntry := none, transcript := [],
    convWrites := 1, indexWrites := 1 }

/-- Witness for C5 amended: a conversation whose enriched title has dropped
the marker never gets its title or index touched again. -/
theorem titleEnrichment_c5_amended_witness :
    (addEntrySeq enrichedRepo [secondUserEntry]).conv = some enrichedConv ∧
    (addEntrySeq enrichedRepo [secondUserEntry]).indexWrites = 1 := by
  have h := (titleEnrichment_c5_amended enrichedRepo enrichedConv
    secondUserEntry rfl).2 (by decide) [secondUserEntry]
  exact ⟨h.1, h.2.2⟩

/-! ## C6: index status agrees with conversation status -/

/-- The invariant claimed by the spec: whenever both the conversation
document and the index entry exist, their status fields agree. -/
def statusAgrees (st : RepoState) : Prop :=
  ∀ c i, st.conv = some c → st.indexEntry = some i → c.status = i.status

/-- Conversation document carrying a status change, as a caller may pass it
to update_conversation. -/
def endedSampleConv : VoiceConv :=
  { title := "Voice session 1234abcd".toList, status := endedStatus,
    endReason := none }

/-- C6 counterexample: update_conversation writes conversation.json only, so
passing it a conversation whose status differs from the stored one leaves
index.json saying "active" while conversation.json says "ended". -/
theorem statusAgreement_c6_counterexample :
    ¬ statusAgrees
        (updateConversation (createConversation emptyRepo sampleConv)
          endedSampleConv) := by
  intro h
  have := h endedSampleConv
    { title := sampleConv.title, status := sampleConv.status, endReason := none }
    rfl rfl
  exact absurd this (by decide)

theorem maybeSetTitle_statusMaps (st : RepoState) (t : List Char) :
    (maybeSetTitle st t).conv.map VoiceConv.status =
      st.conv.map VoiceConv.status ∧
    (maybeSetTitle st t).indexEntry.map IndexEntry.status =
      st.indexEntry.map IndexEntry.status := by
  unfold maybeSetTitle
  split
  · exact ⟨rfl, rfl⟩
  · rename_i c hc
    split
    · exact ⟨rfl, rfl⟩
    · split
      · exact ⟨rfl, rfl⟩
      · constructor
        · simp [hc]
        · cases hie : st.indexEntry with
          | none => simp [patchIndexTitle, hie]
          | some i0 => simp [patchIndexTitle, hie]

theorem statusAgrees_of_statusMaps {st st2 : RepoState}
    (h1 : st2.conv.map VoiceConv.status = st.conv.map VoiceConv.status)
    (h2 : st2.indexEntry.map IndexEntry.status =
      st.indexEntry.map IndexEntry.status)
    (h : statusAgrees st) : statusAgrees st2 := by
  intro c2 i2 hc2 hi2
  rw [hc2] at h1
  rw [hi2] at h2
  cases hc : st.conv with
  | none => rw [hc] at h1; simp at h1
  | some c0 =>
      cases hie : st.indexEntry with
      | none => rw [hie] at h2; simp at h2
      | some i0 =>
          rw [hc] at h1
          rw [hie] at h2
          simp at h1 h2
          rw [h1, h2]
          exact h c0 i0 hc hie

theorem statusAgrees_maybeSetTitle (st : RepoState) (t : List Char)
    (h : statusAgrees st) : statusAgrees (maybeSetTitle st t) :=
  statusAgrees_of_statusMaps (maybeSetTitle_statusMaps st t).1
    (maybeSetTitle_statusMaps st t).2 h

/-- C6 amended: the invariant holds after create_conversation, update_status,
end_conversation, add_entry and add_entries (given it held before for the
title-only operations), while update_conversation preserves it only when the
conversation passed in keeps the stored status. -/
theorem statusAgreement_c6_amended (st : RepoState) (c : VoiceConv)
    (s r : List Char) (e : TEntry) (es : List TEntry) :
    statusAgrees (createConversation st c) ∧
    statusAgrees (updateStatus st s) ∧
    statusAgrees (endConversation st r) ∧
    (statusAgrees st → statusAgrees (addEntry st e)) ∧
    (statusAgrees st → statusAgrees (addEntries st es)) ∧
    (statusAgrees st → ∀ c0, st.conv = some c0 → c.status = c0.status →
      statusAgrees (updateConversation st c)) := by
  refine ⟨?_, ?_, ?_, ?_, ?_, ?_⟩
  · intro c2 i2 hc2 hi2
    simp only [createConversation, Option.some.injEq] at hc2 hi2
    rw [← hc2, ← hi2]
  · intro c2 i2 hc2 hi2
    unfold updateStatus at hc2 hi2
    cases hc : st.conv with
    | none => rw [hc] at hc2 hi2; simp at hc2 hi2; rw [hc] at hc2; simp at hc2
    | some c0 =>
        rw [hc] at hc2 hi2
        simp only [Option.some.injEq] at hc2
        cases hie : st.indexEntry with
        | none => rw [hie] at hi2; simp at hi2
        | some i0 =>
            rw [hie] at hi2
            simp only [Option.some.injEq] at hi2
            rw [← hc2, ← hi2]
  · intro c2 i2 hc2 hi2
    unfold endConversation at hc2 hi2
    cases hc : st.conv with
    | none => rw [hc] at hc2 hi2; simp at hc2 hi2; rw [hc] at hc2; simp at hc2
    | some c0 =>
        rw [hc] at hc2 hi2
        simp only [Option.some.injEq] at hc2
        cases hie : st.indexEntry with
        | none => rw [hie] at hi2; simp at hi2
        | some i0 =>
            rw [hie] at hi2
            simp only [Option.some.injEq] at hi2
            rw [← hc2, ← hi2]
  · intro h
    unfold addEntry
    by_cases hr : e.role = userRole
    · rw [if_pos hr]
      refine statusAgrees_maybeSetTitle _ _ ?_
      intro c2 i2 hc2 hi2
      exact h c2 i2 hc2 hi2
    · rw [if_neg hr]
      intro c2 i2 hc2 hi2
      exact h c2 i2 hc2 hi2
  · intro h
    unfold addEntries
    cases firstUserContent es with
    | some t =>
        refine statusAgrees_maybeSetTitle _ _ ?_
        intro c2 i2 hc2 hi2
        exact h c2 i2 hc2 hi2
    | none =>
        intro c2 i2 hc2 hi2
        exact h c2 i2 hc2 hi2
  · intro h c0 hc hkeep c2 i2 hc2 hi2
    simp only [updateConversation, Option.some.injEq] at hc2 hi2
    rw [← hc2, hkeep]
    exact h c0 i2 hc hi2

/-- Witness for C6 amended: after creating the sample conversation the index
entry status agrees with the conversation status. -/
theorem statusAgreement_c6_amended_witness :
    sampleConv.status =
      ({ title := sampleConv.title, status := sampleConv.status,
         endReason := none } : IndexEntry).status := by
  have h := (statusAgreement_c6_amended emptyRepo sampleConv
    "disconnected".toList "user_ended".toList secondUserEntry []).1
  exact h sampleConv
    { title := sampleConv.title, status := sampleConv.status, endReason := none }
    rfl rfl

/-! ## C7: mirrored Runtime-side transcript

Source: src/distro-server/src/amplifier_distro/server/apps/voice/transcript/
repository.py, VoiceConversationRepository.write_to_amplifier_transcript
(lines 269-311): only user/assistant entries are converted to provider-API
lines and appended to the mirrored transcript.jsonl. -/

/-- One content block of a mirrored line: the dict with keys type and text. -/
structure ContentBlock where
  ctype : List Char
  text : List Char
deriving DecidableEq

/-- One mirrored transcript line: role plus a one-element content array. -/
structure MirrorMsg where
  role : List Char
  content : List ContentBlock
deriving DecidableEq

/-- Conversion of a voice entry into the mirrored line (lines 302-305). -/
def entryToMirror (e : TEntry) : MirrorMsg :=
  { role := e.role, content := [{ ctype := "text".toList, text := e.content }] }

/-- The loop over the entries (lines 299-306): entries whose role is not
user or assistant are skipped. -/
def mirrorLines : List TEntry → List MirrorMsg
  | [] => []
  | e :: rest =>
      if e.role = userRole ∨ e.role = assistantRole
      then entryToMirror e :: mirrorLines rest
      else mirrorLines rest

/-- write_to_amplifier_transcript appends the converted lines to the
existing mirrored file (open mode "a", lines 309-311). -/
def writeToAmplifierTranscript (file : List MirrorMsg) (entries : List TEntry) :
    List MirrorMsg :=
  file ++ mirrorLines entries

theorem mirrorLines_eq_filterMap (entries : List TEntry) :
    mirrorLines entries =
      (entries.filter fun e =>
        decide (e.role = userRole ∨ e.role = assistantRole)).map entryToMirror := by
  induction entries with
  | nil => rfl
  | cons e rest ih =>
      by_cases hr : e.role = userRole ∨ e.role = assistantRole
      · simp [mirrorLines, hr, ih]
      · simp [mirrorLines, hr, ih]

/-- C7: the mirrored transcript receives exactly the user and assistant
entries, each as a role plus single text content block; every mirrored line
comes from some voice-transcript entry whose role is user or assistant, so
tool_call and tool_result entries never appear in the mirror and the voice
transcript is a superset of the mirrored turns. -/
theorem mirror_c7 (file : List MirrorMsg) (entries : List TEntry) :
    writeToAmplifierTranscript file entries =
      file ++ (entries.filter fun e =>
        decide (e.role = userRole ∨ e.role = assistantRole)).map entryToMirror ∧
    (∀ m, m ∈ mirrorLines entries →
      ∃ e, e ∈ entries ∧ (e.role = userRole ∨ e.role = assistantRole) ∧
        m = entryToMirror e ∧ m.role ≠ "tool_call".toList ∧
        m.role ≠ "tool_result".toList) := by
  constructor
  · rw [writeToAmplifierTranscript, mirrorLines_eq_filterMap]
  · intro m hm
    rw [mirrorLines_eq_filterMap] at hm
    rcases List.mem_map.mp hm with ⟨e, he, hme⟩
    rcases List.mem_filter.mp he with ⟨hee, hrole⟩
    have hr : e.role = userRole ∨ e.role = assistantRole := of_decide_eq_true hrole
    refine ⟨e, hee, hr, hme.symm, ?_, ?_⟩
    · rcases hr with h1 | h1 <;>
        (rw [← hme]; show e.role ≠ _; rw [h1]; decide)
    · rcases hr with h1 | h1 <;>
        (rw [← hme]; show e.role ≠ _; rw [h1]; decide)

/-- Concrete batch: one user turn and one tool call. -/
def mirrorSampleEntries : List TEntry :=
  [{ role := userRole, content := "hello".toList },
   { role := "tool_call".toList, content := "get_weather".toList }]

/-- Witness for C7: of the concrete two-entry batch only the user turn is
mirrored. -/
theorem mirror_c7_witness :
    writeToAmplifierTranscript [] mirrorSampleEntries =
      [] ++ (mirrorSampleEntries.filter fun e =>
        decide (e.role = userRole ∨ e.role = assistantRole)).map entryToMirror :=
  (mirror_c7 [] mirrorSampleEntries).1

/-! ## C8: API-key verification on mutation endpoints

Source: src/distro-server/src/amplifier_distro/server/app.py, verify_api_key
(lines 56-71), guarding the core mutation routes via an HTTPBearer
dependency with auto_error disabled, and src/distro-server/src/
amplifier_distro/server/apps/voice/__init__.py, _require_api_key
(lines 159-165), guarding the voice mutation routes via the X-API-Key
header.  The FastAPI HTTPBearer dependency parses the Authorization header
by partitioning at the first space and requires the scheme to equal bearer
case-insensitively; otherwise (auto_error=False) it yields no credentials. -/

/-- Python str.partition(" "): the text before the first space and the text
after it (empty when there is no space). -/
def splitAtFirstSpace : List Char → List Char × List Char
  | [] => ([], [])
  | c :: rest =>
      if c = ' ' then ([], rest)
      else
        ((splitAtFirstSpace rest).1.cons c, (splitAtFirstSpace rest).2)

/-- Credentials extracted from the Authorization header by HTTPBearer with
auto_error disabled: the token after the bearer scheme, if well-formed. -/
def bearerToken (authorization : Option String) : Option String :=
  match authorization with
  | none => none
  | some a =>
      if (splitAtFirstSpace a.toList).1 = [] ∨
          (splitAtFirstSpace a.toList).2 = [] then none
      else if lowerChars (splitAtFirstSpace a.toList).1 = "bearer".toList
      then some (String.mk (splitAtFirstSpace a.toList).2)
      else none

/-- The 401 payload raised by both dependencies. -/
def apiKey401 : Nat × String := (401, "Invalid or missing API key")

/-- verify_api_key (app.py lines 56-71): pass when no key is configured,
else pass only when the bearer credentials equal the key; the X-API-Key
header is never consulted.  Returns none on pass, the 401 payload on
rejection. -/
def verifyApiKeyCore (configuredKey : String) (authorization : Option String)
    (xApiKey : Option String) : Option (Nat × String) :=
  if configuredKey = "" then none
  else
    match bearerToken authorization with
    | none => some apiKey401
    | some cred => if cred = configuredKey then none else some apiKey401

/-- The voice _require_api_key (voice/__init__.py lines 159-165): pass when
no key is configured, else pass only when X-API-Key equals the key
(hmac.compare_digest); the Authorization header is never consulted. -/
def requireApiKeyVoice (configuredKey : String) (authorization : Option String)
    (xApiKey : Option String) : Option (Nat × String) :=
  if configuredKey = "" then none
  else
    match xApiKey with
    | none => some apiKey401
    | some k => if k = configuredKey then none else some apiKey401

/-- C8 counterexample: with the key configured, a core mutation request that
presents the correct key only in X-API-Key is rejected with 401, and a
voice mutation request that presents it only as a bearer token is rejected
with 401 — the two header forms are not interchangeable. -/
theorem apiKey_c8_counterexample :
    verifyApiKeyCore "secret-key" none (some "secret-key") = some apiKey401 ∧
    requireApiKeyVoice "secret-key" (some "Bearer secret-key") none =
      some apiKey401 := by
  constructor <;> rfl

/-- C8 amended: when a key is configured, core mutation endpoints pass
exactly the requests whose Authorization header carries the key as a bearer
token, voice mutation endpoints pass exactly the requests whose X-API-Key
header carries the key, and every rejected request gets the 401 payload
with the detail message. -/
theorem apiKey_c8_amended (key : String) (authorization xApiKey : Option String)
    (hkey : key ≠ "") :
    (verifyApiKeyCore key authorization xApiKey = none ↔
      bearerToken authorization = some key) ∧
    (requireApiKeyVoice key authorization xApiKey = none ↔
      xApiKey = some key) ∧
    (verifyApiKeyCore key authorization xApiKey = none ∨
      verifyApiKeyCore key authorization xApiKey = some apiKey401) ∧
    (requireApiKeyVoice key authorization xApiKey = none ∨
      requireApiKeyVoice key authorization xApiKey = some apiKey401) := by
  refine ⟨?_, ?_, ?_, ?_⟩
  · unfold verifyApiKeyCore
    rw [if_neg hkey]
    cases hb : bearerToken authorization with
    | none => simp
    | some cred =>
        by_cases hc : cred = key
        · simp [hc]
        · simp [hc]
  · unfold requireApiKeyVoice
    rw [if_neg hkey]
    cases xApiKey with
    | none => simp
    | some k =>
        by_cases hc : k = key
        · simp [hc]
        · simp [hc]
  · unfold verifyApiKeyCore
    rw [if_neg hkey]
    cases bearerToken authorization with
    | none => right; rfl
    | some cred =>
        by_cases hc : cred = key
        · left; simp [hc]
        · right; simp [hc]
  · unfold requireApiKeyVoice
    rw [if_neg hkey]
    cases xApiKey with
    | none => right; rfl
    | some k =>
        by_cases hc : k = key
        · left; simp [hc]
        · right; simp [hc]

/-- Witness for C8 amended at a concrete configured key and headers. -/
theorem apiKey_c8_amended_witness :
    ("secret-key" : String) ≠ "" ∧
    (verifyApiKeyCore "secret-key" (some "Bearer secret-key") none = none ↔
      bearerToken (some "Bearer secret-key") = some "secret-key") :=
  ⟨by decide,
   (apiKey_c8_amended "secret-key" (some "Bearer secret-key") none
     (by decide)).1⟩

/-! ## C9: Origin check on the SSE event stream

Source: src/distro-server/src/amplifier_distro/server/apps/voice/__init__.py,
_check_origin (lines 168-174), used by events_stream (line 328): a missing
Origin passes, an Origin containing the substring localhost or 127.0.0.1
passes, anything else is rejected with 403. -/

/-- The _check_origin dependency: none on pass, some 403 on rejection. -/
def checkOrigin (origin : Option String) : Option Nat :=
  match origin with
  | none => none
  | some o =>
      if charListContains o.toList "localhost".toList ||
          charListContains o.toList "127.0.0.1".toList
      then none
      else some 403

/-- Text after the first scheme separator "://", if present. -/
def afterSchemeSep : List Char → Option (List Char)
  | [] => none
  | c :: rest =>
      if c = ':' ∧ rest.take 2 = ['/', '/'] then some (rest.drop 2)
      else afterSchemeSep rest

/-- Host portion of an origin value: the text after the scheme separator
(or the whole value when there is none), up to the first colon or slash. -/
def originHost (o : List Char) : List Char :=
  (match afterSchemeSep o with
   | some r => r
   | none => o).takeWhile fun c => !(c = ':' || c = '/')

/-- The spec-side notion used by the claim: an origin whose host is exactly
localhost or 127.0.0.1. -/
def isLocalhostOrigin (o : String) : Bool :=
  decide (originHost o.toList = "localhost".toList) ||
    decide (originHost o.toList = "127.0.0.1".toList)

/-- C9 counterexample: the substring test lets through an origin whose host
is localhost.evil.com, which is not a localhost or 127.0.0.1 origin, so
"any other Origin value is denied with 403" fails on the code. -/
theorem originCheck_c9_counterexample :
    checkOrigin (some "http://localhost.evil.com") = none ∧
    isLocalhostOrigin "http://localhost.evil.com" = false := by
  constructor <;> decide

theorem afterSchemeSep_isSuffix (cs : List Char) :
    ∀ r, afterSchemeSep cs = some r → r <:+ cs := by
  induction cs with
  | nil => intro r h; simp [afterSchemeSep] at h
  | cons c rest ih =>
      intro r h
      unfold afterSchemeSep at h
      by_cases hc : c = ':' ∧ rest.take 2 = ['/', '/']
      · rw [if_pos hc] at h
        injection h with h
        subst h
        exact (List.drop_suffix 2 rest).trans (List.suffix_cons c rest)
      · rw [if_neg hc] at h
        exact (ih r h).trans (List.suffix_cons c rest)

theorem originHost_isInfix (cs : List Char) : originHost cs <:+: cs := by
  cases hs : afterSchemeSep cs with
  | none =>
      have hdef : originHost cs =
          cs.takeWhile fun c => !(c = ':' || c = '/') := by
        unfold originHost; rw [hs]
      rw [hdef]
      have hpre := List.takeWhile_prefix (l := cs) (fun c => !(c = ':' || c = '/'))
      exact hpre.isInfix
  | some r =>
      have hdef : originHost cs =
          r.takeWhile fun c => !(c = ':' || c = '/') := by
        unfold originHost; rw [hs]
      rw [hdef]
      rcases afterSchemeSep_isSuffix cs r hs with ⟨pre2, hps⟩
      have hpre := List.takeWhile_prefix (l := r) (fun c => !(c = ':' || c = '/'))
      rcases hpre with ⟨post, hpp⟩
      exact ⟨pre2, post, by rw [List.append_assoc, hpp, hps]⟩

/-- C9 amended: a missing Origin passes; a present Origin passes exactly
when it contains the substring localhost or 127.0.0.1 (in particular every
genuine localhost or 127.0.0.1 origin passes); every other Origin is
rejected with 403. -/
theorem originCheck_c9_amended (o : String) :
    checkOrigin none = none ∧
    (checkOrigin (some o) = none ↔
      (charListContains o.toList "localhost".toList ||
        charListContains o.toList "127.0.0.1".toList) = true) ∧
    (isLocalhostOrigin o = true → checkOrigin (some o) = none) ∧
    (checkOrigin (some o) = none ∨ checkOrigin (some o) = some 403) := by
  have hdef : checkOrigin (some o) =
      if charListContains o.toList "localhost".toList ||
          charListContains o.toList "127.0.0.1".toList
      then none else some 403 := rfl
  refine ⟨rfl, ?_, ?_, ?_⟩
  · rw [hdef]
    cases hx : (charListContains o.toList "localhost".toList ||
        charListContains o.toList "127.0.0.1".toList) with
    | false =>
        constructor
        · intro h; simp at h
        · intro h; exact absurd h (by decide)
    | true => exact ⟨fun _ => rfl, fun _ => rfl⟩
  · intro hl
    by_cases h1 : originHost o.toList = "localhost".toList
    · have hinf : ("localhost".toList : List Char) <:+: o.toList := by
        rw [← h1]; exact originHost_isInfix o.toList
      rw [hdef, charListContains_of_isInfix hinf, Bool.true_or]
      rfl
    · by_cases h2 : originHost o.toList = "127.0.0.1".toList
      · have hinf : ("127.0.0.1".toList : List Char) <:+: o.toList := by
          rw [← h2]; exact originHost_isInfix o.toList
        rw [hdef, charListContains_of_isInfix hinf, Bool.or_true]
        rfl
      · exfalso
        unfold isLocalhostOrigin at hl
        rw [decide_eq_false h1, decide_eq_false h2] at hl
        exact absurd hl (by decide)
  · rw [hdef]
    cases hx : (charListContains o.toList "localhost".toList ||
        charListContains o.toList "127.0.0.1".toList) with
    | false => right; rfl
    | true => left; rfl

/-- Witness for C9 amended: a genuine localhost origin with a port passes. -/
theorem originCheck_c9_amended_witness :
    isLocalhostOrigin "http://localhost:3000" = true ∧
    checkOrigin (some "http://localhost:3000") = none :=
  ⟨by decide,
   (originCheck_c9_amended "http://localhost:3000").2.2.1 (by decide)⟩

/-! ## Session backend state

Source: src/distro-server/src/amplifier_distro/server/session_backend.py,
class FoundationBackend.  The Python dict of session handles always binds
each key to a handle carrying the same session id, so it is modelled as a
list of handles looked up by their sessionId field.  The sets and dicts
keyed only by session id are modelled as lists of ids.  The contents of the
worker queues, the live Runtime session objects and the wall-clock timeouts
of end_session/stop are irrelevant to the claims below and are abstracted
away. -/

structure SessionHandle where
  sessionId : String
  projectId : String
  workingDir : String
deriving DecidableEq

structure SessionInfo where
  sessionId : String
  projectId : String
  workingDir : String
deriving DecidableEq

structure BackendState where
  sessions : List SessionHandle
  endedSessions : List String
  sessionQueueIds : List String
  workerIds : List String
  approvalIds : List String
  wiredIds : List String
deriving DecidableEq

/-- FoundationBackend.list_active_sessions (lines 847-855): one SessionInfo
per handle in the session map. -/
def listActiveSessions (st : BackendState) : List SessionInfo :=
  st.sessions.map fun h =>
    { sessionId := h.sessionId, projectId := h.projectId,
      workingDir := h.workingDir }

/-- Lookup of self._sessions.get(session_id). -/
def lookupHandle (st : BackendState) (sid : String) : Option SessionHandle :=
  st.sessions.find? fun h => h.sessionId == sid

/-- FoundationBackend.end_session (lines 767-811): tombstone the id, drop
the wiring and approval bookkeeping, pop the handle, and (after draining
the worker) drop the queue and worker entries.  The drain/cancel of queued
futures does not affect the state components modelled here. -/
def endSession (st : BackendState) (sid : String) : BackendState :=
  { sessions := st.sessions.filter fun h => h.sessionId != sid,
    endedSessions := sid :: st.endedSessions,
    sessionQueueIds := st.sessionQueueIds.filter fun i => i != sid,
    workerIds := st.workerIds.filter fun i => i != sid,
    approvalIds := st.approvalIds.filter fun i => i != sid,
    wiredIds := st.wiredIds.filter fun i => i != sid }

/-- Error text raised by _reconnect for a tombstoned session (lines
630-634). -/
def tombstoneMessage (sid : String) : String :=
  "Session " ++ sid ++ " was intentionally ended and cannot be reconnected"

/-- Error text raised by _reconnect when the transcript scan or session
recreation fails (line 713). -/
def unknownSessionMessage (sid : String) : String :=
  "Unknown session: " ++ sid

/-- FoundationBackend._reconnect (lines 619-713).  The projects tree and the
Runtime are abstracted into the disk predicate: disk sid is true when a
transcript for sid exists and the Runtime session can be recreated.  A
tombstoned id raises the intentionally-ended error before anything else;
any failure afterwards is wrapped into the unknown-session error. -/
def reconnectOutcome (disk : String → Bool) (st : BackendState)
    (sid wd : String) : Except String SessionHandle :=
  if st.endedSessions.contains sid then Except.error (tombstoneMessage sid)
  else if disk sid then
    Except.ok
      { sessionId := sid,
        projectId := String.mk (encodeProjectId wd.toList),
        workingDir := wd }
  else Except.error (unknownSessionMessage sid)

/-- FoundationBackend.send_message (lines 529-560) up to the point where the
message is enqueued: an existing handle is used directly, otherwise the
session is reconnected (with the default working directory) under the
per-session lock; the reconnect error propagates to the caller. -/
def sendMessageOutcome (disk : String → Bool) (st : BackendState)
    (sid : String) : Except String SessionHandle :=
  match lookupHandle st sid with
  | some h => Except.ok h
  | none => reconnectOutcome disk st sid "~"

/-- FoundationBackend.resume_session (lines 857-884): with an event queue the
tombstone is first discarded; without one it is kept; then a missing handle
triggers _reconnect with the given working directory. -/
def resumeSessionOutcome (disk : String → Bool) (st : BackendState)
    (sid wd : String) (hasEventQueue : Bool) : Except String SessionHandle :=
  if hasEventQueue then
    match lookupHandle st sid with
    | some h => Except.ok h
    | none =>
        reconnectOutcome disk
          { st with endedSessions := st.endedSessions.filter fun i => i != sid }
          sid wd
  else
    match lookupHandle st sid with
    | some h => Except.ok h
    | none => reconnectOutcome disk st sid wd

/-- The phrase the claim requires the error text to match. -/
def mentionsUnknownSession (msg : String) : Bool :=
  mentionsPhrase msg "unknown session"

/-! ## C1: behaviour after end_session -/

theorem find?_filter_ne_none (l : List SessionHandle) (sid : String) :
    (l.filter fun h => h.sessionId != sid).find?
      (fun h => h.sessionId == sid) = none := by
  induction l with
  | nil => rfl
  | cons h rest ih =>
      by_cases hs : h.sessionId = sid
      · rw [List.filter_cons, if_neg (by simp [hs])]
        exact ih
      · rw [List.filter_cons, if_pos (by simp [hs])]
        rw [List.find?_cons_of_neg _ (by simp [hs])]
        exact ih

theorem map_filter_not_contains (l : List SessionHandle) (sid : String) :
    (((l.filter fun h => h.sessionId != sid).map
      fun h => h.sessionId).contains sid) = false := by
  induction l with
  | nil => rfl
  | cons h rest ih =>
      by_cases hs : h.sessionId = sid
      · rw [List.filter_cons, if_neg (by simp [hs])]
        exact ih
      · rw [List.filter_cons, if_pos (by simp [hs])]
        rw [List.map_cons, List.contains_cons, ih]
        have hs2 : (sid == h.sessionId) = false := by
          simp
          exact fun hEq => hs hEq.symm
        rw [hs2]
        rfl

/-- C1 amended: after end_session(s) the session no longer appears in
list_active_sessions, and both send_message(s) and resume_session(s)
without an event queue fail — but with the intentionally-ended error text
of the tombstone check, not with an unknown-session error text. -/
theorem endSession_c1_amended (st : BackendState) (sid wd : String)
    (disk : String → Bool) :
    (((listActiveSessions (endSession st sid)).map
      fun i => i.sessionId).contains sid) = false ∧
    sendMessageOutcome disk (endSession st sid) sid =
      Except.error (tombstoneMessage sid) ∧
    resumeSessionOutcome disk (endSession st sid) sid wd false =
      Except.error (tombstoneMessage sid) ∧
    mentionsUnknownSession (tombstoneMessage sid) =
      charListContains (lowerChars (tombstoneMessage sid).toList)
        "unknown session".toList := by
  refine ⟨?_, ?_, ?_, rfl⟩
  · have : (listActiveSessions (endSession st sid)).map (fun i => i.sessionId) =
        ((endSession st sid).sessions.map fun h => h.sessionId) := by
      simp [listActiveSessions]
    rw [this]
    exact map_filter_not_contains st.sessions sid
  · unfold sendMessageOutcome
    rw [show lookupHandle (endSession st sid) sid = none from
      find?_filter_ne_none st.sessions sid]
    unfold reconnectOutcome
    rw [if_pos (by simp [endSession])]
  · unfold resumeSessionOutcome
    rw [if_neg (by simp)]
    rw [show lookupHandle (endSession st sid) sid = none from
      find?_filter_ne_none st.sessions sid]
    unfold reconnectOutcome
    rw [if_pos (by simp [endSession])]

/-- A backend state with one live session named sess-x. -/
def liveState : BackendState :=
  { sessions :=
      [{ sessionId := "sess-x", projectId := "-tmp-x", workingDir := "/tmp/x" }],
    endedSessions := [], sessionQueueIds := ["sess-x"],
    workerIds := ["sess-x"], approvalIds := [], wiredIds := [] }

/-- Disk on which a transcript for every session id exists, so only the
tombstone can make the reconnect fail. -/
def fullDisk : String → Bool := fun _ => true

/-- C1 counterexample: after end_session("sess-x"), send_message and
resume_session do fail, but the error text is the intentionally-ended
message, which does not match the phrase unknown session, so the claim as
stated is false. -/
theorem endSession_c1_counterexample :
    sendMessageOutcome fullDisk (endSession liveState "sess-x") "sess-x" =
      Except.error (tombstoneMessage "sess-x") ∧
    resumeSessionOutcome fullDisk (endSession liveState "sess-x") "sess-x"
      "/tmp/x" false = Except.error (tombstoneMessage "sess-x") ∧
    mentionsUnknownSession (tombstoneMessage "sess-x") = false := by
  refine ⟨rfl, rfl, by decide⟩

/-! ## C2: per-session serialization of Runtime calls

Source: src/distro-server/src/amplifier_distro/server/session_backend.py,
FoundationBackend.send_message (lines 529-560) and
FoundationBackend._session_worker (lines 715-765).  send_message appends
(message, future) to the per-session FIFO queue; the single worker task of
the session loops: dequeue the next item, await handle.run(message), then
resolve the future, before touching the next item.  The trace below lists
the events of one worker draining n queued messages (indexed by enqueue
position) in the order the sequential loop produces them. -/

inductive WorkerEvent where
  | runStart : Nat → WorkerEvent
  | runEnd : Nat → WorkerEvent
  | futureResolved : Nat → WorkerEvent
deriving DecidableEq

/-- Events of the worker loop draining the items numbered i, i+1, ... with
n items remaining: each iteration starts the Runtime call, finishes it and
resolves the future of that item before dequeuing the next. -/
def workerTraceFrom : Nat → Nat → List WorkerEvent
  | _, 0 => []
  | i, n + 1 =>
      WorkerEvent.runStart i :: WorkerEvent.runEnd i ::
        WorkerEvent.futureResolved i :: workerTraceFrom (i + 1) n

/-- Trace of one session worker draining n messages enqueued by
send_message, in enqueue order starting at index 0. -/
def sessionWorkerTrace (n : Nat) : List WorkerEvent := workerTraceFrom 0 n

def isRunStart : WorkerEvent → Bool
  | WorkerEvent.runStart _ => true
  | _ => false

def isRunEnd : WorkerEvent → Bool
  | WorkerEvent.runEnd _ => true
  | _ => false

/-- Number of Runtime calls begun in a trace segment. -/
def runStartCount (tr : List WorkerEvent) : Nat := tr.countP isRunStart

/-- Number of Runtime calls finished in a trace segment. -/
def runEndCount (tr : List WorkerEvent) : Nat := tr.countP isRunEnd

theorem workerTraceFrom_get (n : Nat) :
    ∀ (s k : Nat), k < n →
      (workerTraceFrom s n).get? (3 * k) =
        some (WorkerEvent.runStart (s + k)) ∧
      (workerTraceFrom s n).get? (3 * k + 2) =
        some (WorkerEvent.futureResolved (s + k)) := by
  induction n with
  | zero => intro s k hk; exact absurd hk (Nat.not_lt_zero k)
  | succ m ih =>
      intro s k hk
      cases k with
      | zero => exact ⟨rfl, rfl⟩
      | succ k2 =>
          have hk2 : k2 < m := Nat.lt_of_succ_lt_succ hk
          have h3 : 3 * (k2 + 1) = 3 * k2 + 3 := by ring
          have h4 : 3 * (k2 + 1) + 2 = 3 * k2 + 2 + 3 := by ring
          have harith : s + 1 + k2 = s + (k2 + 1) := by ring
          constructor
          · rw [h3]
            show (workerTraceFrom (s + 1) m).get? (3 * k2) = _
            rw [(ih (s + 1) k2 hk2).1, harith]
          · rw [h4]
            show (workerTraceFrom (s + 1) m).get? (3 * k2 + 2) = _
            rw [(ih (s + 1) k2 hk2).2, harith]

theorem workerTraceFrom_inflight (n : Nat) :
    ∀ (s m : Nat),
      runStartCount ((workerTraceFrom s n).take m) ≤
        runEndCount ((workerTraceFrom s n).take m) + 1 := by
  induction n with
  | zero => intro s m; simp [workerTraceFrom, runStartCount, runEndCount]
  | succ n2 ih =>
      intro s m
      match m with
      | 0 => simp [runStartCount, runEndCount]
      | 1 => simp [workerTraceFrom, runStartCount, runEndCount, List.countP,
          List.countP.go, isRunStart, isRunEnd]
      | 2 => simp [workerTraceFrom, runStartCount, runEndCount, List.countP,
          List.countP.go, isRunStart, isRunEnd]
      | m2 + 3 =>
          have hstep :
              (workerTraceFrom s (n2 + 1)).take (m2 + 3) =
                WorkerEvent.runStart s :: WorkerEvent.runEnd s ::
                  WorkerEvent.futureResolved s ::
                    (workerTraceFrom (s + 1) n2).take m2 := rfl
          rw [hstep]
          have hS : runStartCount
              (WorkerEvent.runStart s :: WorkerEvent.runEnd s ::
                WorkerEvent.futureResolved s ::
                  (workerTraceFrom (s + 1) n2).take m2) =
              runStartCount ((workerTraceFrom (s + 1) n2).take m2) + 1 := by
            simp [runStartCount, List.countP_cons, isRunStart, isRunEnd]
          have hE : runEndCount
              (WorkerEvent.runStart s :: WorkerEvent.runEnd s ::
                WorkerEvent.futureResolved s ::
                  (workerTraceFrom (s + 1) n2).take m2) =
              runEndCount ((workerTraceFrom (s + 1) n2).take m2) + 1 := by
            simp [runEndCount, List.countP_cons, isRunStart, isRunEnd]
          rw [hS, hE]
          exact Nat.succ_le_succ (ih (s + 1) m2)

/-- C2: for messages enqueued to the same session at positions i before j,
the Runtime call for i starts strictly before the Runtime call for j, the
futures (send_message results) resolve in enqueue order, and in every
prefix of the trace at most one Runtime call is in flight. -/
theorem sessionSerialization_c2 (n i j : Nat) (hij : i < j) (hj : j < n) :
    (∃ k l, k < l ∧
      (sessionWorkerTrace n).get? k = some (WorkerEvent.runStart i) ∧
      (sessionWorkerTrace n).get? l = some (WorkerEvent.runStart j)) ∧
    (∃ k l, k < l ∧
      (sessionWorkerTrace n).get? k = some (WorkerEvent.futureResolved i) ∧
      (sessionWorkerTrace n).get? l = some (WorkerEvent.futureResolved j)) ∧
    (∀ m, runStartCount ((sessionWorkerTrace n).take m) ≤
      runEndCount ((sessionWorkerTrace n).take m) + 1) := by
  have hi : i < n := Nat.lt_trans hij hj
  have hgi := workerTraceFrom_get n 0 i hi
  have hgj := workerTraceFrom_get n 0 j hj
  refine ⟨⟨3 * i, 3 * j, ?_, ?_, ?_⟩, ⟨3 * i + 2, 3 * j + 2, ?_, ?_, ?_⟩, ?_⟩
  · omega
  · rw [show sessionWorkerTrace n = workerTraceFrom 0 n from rfl, hgi.1]
    rw [Nat.zero_add]
  · rw [show sessionWorkerTrace n = workerTraceFrom 0 n from rfl, hgj.1]
    rw [Nat.zero_add]
  · omega
  · rw [show sessionWorkerTrace n = workerTraceFrom 0 n from rfl, hgi.2]
    rw [Nat.zero_add]
  · rw [show sessionWorkerTrace n = workerTraceFrom 0 n from rfl, hgj.2]
    rw [Nat.zero_add]
  · intro m
    exact workerTraceFrom_inflight n 0 m

/-- Witness for C2 at two messages (positions 0 and 1) of a two-message
queue. -/
theorem sessionSerialization_c2_witness :
    (0 : Nat) < 1 ∧ (1 : Nat) < 2 ∧
    ((∃ k l, k < l ∧
      (sessionWorkerTrace 2).get? k = some (WorkerEvent.runStart 0) ∧
      (sessionWorkerTrace 2).get? l = some (WorkerEvent.runStart 1)) ∧
    (∃ k l, k < l ∧
      (sessionWorkerTrace 2).get? k = some (WorkerEvent.futureResolved 0) ∧
      (sessionWorkerTrace 2).get? l = some (WorkerEvent.futureResolved 1)) ∧
    (∀ m, runStartCount ((sessionWorkerTrace 2).take m) ≤
      runEndCount ((sessionWorkerTrace 2).take m) + 1)) :=
  ⟨by decide, by decide, sessionSerialization_c2 2 0 1 (by decide) (by decide)⟩

/-! ## C3: producers on the bounded event queue

Sources: the voice connection creates its event queue with maxsize 10000
(src/distro-server/src/amplifier_distro/server/apps/voice/connection.py,
_EVENT_QUEUE_MAX_SIZE, lines 29 and 38); the streaming hook pushes with
put_nowait inside contextlib.suppress(asyncio.QueueFull)
(event_streaming.py, EventStreamingHook.__call__, lines 70-80); the voice
approval system pushes with await queue.put(event)
(voice_approval.py, VoiceApprovalSystem.request_approval, lines 70-107);
the backend wiring closures push with put_nowait and log a warning on
QueueFull (session_backend.py, _wire_event_queue, lines 396-401 and
443-464).  Each producer is modelled by what its enqueue does at a given
queue size: enqueue, drop with a warn log, drop silently, or suspend
(block) until space is available. -/

inductive EnqOutcome where
  | enqueued
  | droppedLogged
  | droppedSilently
  | blocked
deriving DecidableEq

/-- The voice event queue bound _EVENT_QUEUE_MAX_SIZE. -/
def eventQueueMaxSize : Nat := 10000

/-- asyncio.Queue.full() for the bounded voice queue. -/
def queueFull (size : Nat) : Bool := decide (eventQueueMaxSize ≤ size)

/-- EventStreamingHook.__call__ (lines 74-76): put_nowait wrapped in
contextlib.suppress(asyncio.QueueFull) — on a full queue the event is
dropped and no log entry is emitted. -/
def eventStreamingHookPut (size : Nat) : EnqOutcome :=
  if queueFull size then EnqOutcome.droppedSilently else EnqOutcome.enqueued

/-- VoiceApprovalSystem.request_approval (line 101): await queue.put(event)
— a blocking put that suspends while the queue is full. -/
def voiceApprovalPut (size : Nat) : EnqOutcome :=
  if queueFull size then EnqOutcome.blocked else EnqOutcome.enqueued

/-- The backend streaming closure on_stream (_wire_event_queue, lines
396-401): put_nowait with a warning log on QueueFull. -/
def backendStreamHookPut (size : Nat) : EnqOutcome :=
  if queueFull size then EnqOutcome.droppedLogged else EnqOutcome.enqueued

/-- The backend approval closure _on_approval_request (_wire_event_queue,
lines 443-464): put_nowait with a warning log on QueueFull. -/
def backendApprovalPut (size : Nat) : EnqOutcome :=
  if queueFull size then EnqOutcome.droppedLogged else EnqOutcome.enqueued

/-- Modelled from the spec: QueueDisplaySystem lives in
amplifier_distro/server/protocol_adapters.py, which is not among the
sources here; per the spec it forwards display messages with a non-blocking
put and drops on a full queue with a warn log. -/
def queueDisplaySystemPut (size : Nat) : EnqOutcome :=
  if queueFull size then EnqOutcome.droppedLogged else EnqOutcome.enqueued

/-- C3 counterexample: at a full queue of 10000 items the voice approval
system blocks instead of dropping, and the streaming hook drops without
emitting a log entry, so the claim that every producer performs a
non-blocking drop with a log entry is false. -/
theorem queueProducers_c3_counterexample :
    voiceApprovalPut 10000 = EnqOutcome.blocked ∧
    voiceApprovalPut 10000 ≠ EnqOutcome.droppedLogged ∧
    eventStreamingHookPut 10000 = EnqOutcome.droppedSilently ∧
    eventStreamingHookPut 10000 ≠ EnqOutcome.droppedLogged := by
  refine ⟨rfl, by decide, rfl, by decide⟩

/-- C3 amended: on a full queue the streaming hook drops the event silently
(never blocking), the backend stream and approval closures and the display
adapter drop the event with a warn log (never blocking), while the voice
approval system performs a blocking put and suspends; below the bound every
producer enqueues. -/
theorem queueProducers_c3_amended (size : Nat) :
    (eventStreamingHookPut size ≠ EnqOutcome.blocked) ∧
    (queueFull size = true →
      eventStreamingHookPut size = EnqOutcome.droppedSilently ∧
      backendStreamHookPut size = EnqOutcome.droppedLogged ∧
      backendApprovalPut size = EnqOutcome.droppedLogged ∧
      queueDisplaySystemPut size = EnqOutcome.droppedLogged ∧
      voiceApprovalPut size = EnqOutcome.blocked) ∧
    (queueFull size = false →
      eventStreamingHookPut size = EnqOutcome.enqueued ∧
      backendStreamHookPut size = EnqOutcome.enqueued ∧
      backendApprovalPut size = EnqOutcome.enqueued ∧
      queueDisplaySystemPut size = EnqOutcome.enqueued ∧
      voiceApprovalPut size = EnqOutcome.enqueued) := by
  refine ⟨?_, ?_, ?_⟩
  · unfold eventStreamingHookPut
    cases hq : queueFull size with
    | false => intro h; exact absurd h (by decide)
    | true => intro h; exact absurd h (by decide)
  · intro hq
    unfold eventStreamingHookPut backendStreamHookPut backendApprovalPut
      queueDisplaySystemPut voiceApprovalPut
    rw [hq]
    exact ⟨rfl, rfl, rfl, rfl, rfl⟩
  · intro hq
    unfold eventStreamingHookPut backendStreamHookPut backendApprovalPut
      queueDisplaySystemPut voiceApprovalPut
    rw [hq]
    exact ⟨rfl, rfl, rfl, rfl, rfl⟩

/-- Witness for C3 amended at a full queue of exactly 10000 items. -/
theorem queueProducers_c3_amended_witness :
    queueFull 10000 = true ∧
    backendStreamHookPut 10000 = EnqOutcome.droppedLogged ∧
    voiceApprovalPut 10000 = EnqOutcome.blocked := by
  refine ⟨by decide, ?_, ?_⟩
  · exact ((queueProducers_c3_amended 10000).2.1 (by decide)).2.1
  · exact ((queueProducers_c3_amended 10000).2.1 (by decide)).2.2.2.2

end AmplifierDistro
